import Mathlib

/-!
Shallow embedding of the MCP OAuth 2.0 authorization and token lifecycle
manager (`apps/web/utils/mcp/oauth.ts` area of the repository: the functions
`handleOAuthCallback`, `getAuthToken`, `getValidAccessToken`,
`refreshOAuthTokens`, `discoverMetadata`, `getOAuthClient`,
`upsertMcpIntegration`, `createAuthServerMetadata`,
`calculateTokenExpiration`, `getMetadataForIntegration`,
`getOAuthServerUrl`).

Modelling conventions:
- The persistent store (Prisma) is an explicit `Db` value threaded through
  every function.  Prisma's update semantics are modelled field by field:
  a field set to `undefined` in an update is left unchanged, a field set to
  `null` is cleared; in `IntegrationUpdateData` the value `none` stands for
  `undefined` (absent field).
- Network calls (the MCP SDK's discovery / registration / exchange / refresh
  functions) are oracles carried in `NetEnv`; every function returns, besides
  its result and the new `Db`, the list of network calls it performed, in
  order.
- JavaScript truthiness on optional strings (`undefined`, `null` and `""` are
  falsy) is `truthyStr`; on optional numbers (`0` falsy) it is `truthyNum`.
- Timestamps are integers (milliseconds); `Env.now` is the clock read
  (`Date.now()` / `new Date()`).
- Errors are thrown `Error` messages, modelled as `Except String`.
- The integration catalog (`getIntegration`, `getStaticCredentials` from the
  sibling `integrations` module) is an out-of-scope collaborator of the core
  per the design; it is carried abstractly in `Env` as lookup functions, and
  theorems take its answers as hypotheses.
-/

namespace McpOauth

/-- JavaScript truthiness of an optional string: `undefined`, `null` and the
empty string are falsy. -/
def truthyStr : Option String → Bool
  | none => false
  | some s => !s.isEmpty

/-- JavaScript truthiness of an optional number: `undefined` and `0` are
falsy. -/
def truthyNum : Option Int → Bool
  | none => false
  | some n => n != 0

/-- Result of `discoverOAuthProtectedResourceMetadata` (RFC 9728). -/
structure ProtectedResourceMetadata where
  authorization_servers : Option (List String) := none
deriving DecidableEq

/-- The MCP SDK's `AuthorizationServerMetadata` document (RFC 8414), reduced
to the fields this module reads or writes. -/
structure AuthServerMetadata where
  issuer : String := ""
  authorization_endpoint : Option String := none
  token_endpoint : Option String := none
  registration_endpoint : Option String := none
  grant_types_supported : Option (List String) := none
  response_types_supported : Option (List String) := none
  token_endpoint_auth_methods_supported : Option (List String) := none
  code_challenge_methods_supported : Option (List String) := none
deriving DecidableEq

/-- The MCP SDK's `OAuthTokens` token-endpoint response. -/
structure OAuthTokens where
  access_token : String
  refresh_token : Option String := none
  expires_in : Option Int := none
deriving DecidableEq

/-- The MCP SDK's `OAuthClientInformation`. -/
structure OAuthClientInformation where
  client_id : String
  client_secret : Option String := none
deriving DecidableEq

/-- The MCP SDK's `OAuthClientMetadata` sent to dynamic client
registration. -/
structure OAuthClientMetadata where
  client_name : String
  redirect_uris : List String
  grant_types : List String
  response_types : List String
  token_endpoint_auth_method : String
  scope : String
deriving DecidableEq

/-- Static fallback OAuth configuration of an integration
(`integrationConfig.oauthConfig`). -/
structure StaticOAuthConfig where
  authorization_endpoint : String
  token_endpoint : String
  registration_endpoint : Option String := none
deriving DecidableEq

/-- The integration's authentication type. -/
inductive AuthType where
  | oauth
  | apiToken
deriving DecidableEq

/-- An entry of the integration catalog (`getIntegration`). -/
structure IntegrationConfig where
  serverUrl : Option String := none
  scopes : List String := []
  authType : AuthType := .oauth
  oauthConfig : Option StaticOAuthConfig := none
deriving DecidableEq

/-- Static OAuth credentials of an integration (`getStaticCredentials`). -/
structure StaticCredentials where
  clientId : Option String := none
  clientSecret : Option String := none
deriving DecidableEq

/-- A persisted `McpIntegration` row: the discovery cache
(`registeredAuthorizationUrl`, `registeredTokenUrl`, `registeredServerUrl`)
and the dynamically registered client credentials. -/
structure McpIntegration where
  id : Nat
  name : String
  registeredAuthorizationUrl : Option String := none
  registeredTokenUrl : Option String := none
  registeredServerUrl : Option String := none
  oauthClientId : Option String := none
  oauthClientSecret : Option String := none
deriving DecidableEq

/-- A persisted `McpConnection` row, unique per
`(emailAccountId, integrationId)`. -/
structure McpConnection where
  id : Nat
  name : String
  emailAccountId : String
  integrationId : Nat
  accessToken : Option String := none
  refreshToken : Option String := none
  expiresAt : Option Int := none
  isActive : Bool := true
  apiKey : Option String := none
deriving DecidableEq

/-- The persistent store: both tables plus id counters for inserts. -/
structure Db where
  integrations : List McpIntegration := []
  connections : List McpConnection := []
  nextIntegrationId : Nat := 0
  nextConnectionId : Nat := 0
deriving DecidableEq

/-- The `prisma.mcpIntegration.findUnique({ where: { name } })` lookup. -/
def findMcpIntegration (db : Db) (name : String) : Option McpIntegration :=
  db.integrations.find? (fun r => r.name == name)

/-- The `prisma.mcpConnection.findFirst` lookup used by `getAuthToken`,
`getValidAccessToken` and `refreshOAuthTokens`: filters on
`emailAccountId`, the related integration's `name`, and `isActive`. -/
def findActiveConnection (db : Db) (emailAccountId integration : String) :
    Option McpConnection :=
  db.connections.find? (fun c =>
    c.emailAccountId == emailAccountId && c.isActive &&
      (db.integrations.find? (fun i => i.id == c.integrationId)).any
        (fun i => i.name == integration))

/-- Lookup on the `emailAccountId_integrationId` unique key used by the
connection upsert of `handleOAuthCallback`. -/
def findConnectionByKey (db : Db) (emailAccountId : String)
    (integrationId : Nat) : Option McpConnection :=
  db.connections.find? (fun c =>
    c.emailAccountId == emailAccountId && c.integrationId == integrationId)

/-- Lookup of a connection row by its primary key `id`. -/
def findConnectionById (db : Db) (id : Nat) : Option McpConnection :=
  db.connections.find? (fun c => c.id == id)

/-- Update data for `upsertMcpIntegration`.  `none` stands for an absent
(`undefined`) field: on the update path Prisma leaves such a field
unchanged, on the create path it becomes `NULL`. -/
structure IntegrationUpdateData where
  registeredAuthorizationUrl : Option String := none
  registeredTokenUrl : Option String := none
  registeredServerUrl : Option String := none
  oauthClientId : Option String := none
  oauthClientSecret : Option String := none
deriving DecidableEq

/-- Prisma update semantics for one `McpIntegration` row: every field present
in the data is set, every absent (`undefined`) field is left unchanged. -/
def applyIntegrationUpdate (data : IntegrationUpdateData)
    (r : McpIntegration) : McpIntegration :=
  { r with
    registeredAuthorizationUrl :=
      data.registeredAuthorizationUrl <|> r.registeredAuthorizationUrl
    registeredTokenUrl := data.registeredTokenUrl <|> r.registeredTokenUrl
    registeredServerUrl := data.registeredServerUrl <|> r.registeredServerUrl
    oauthClientId := data.oauthClientId <|> r.oauthClientId
    oauthClientSecret := data.oauthClientSecret <|> r.oauthClientSecret }

/-- The source's `upsertMcpIntegration`:
`prisma.mcpIntegration.upsert({ where: { name }, update: data,
create: { name, ...data } })`.  Returns the resulting row and the new
store. -/
def upsertMcpIntegration (db : Db) (integration : String)
    (data : IntegrationUpdateData) : McpIntegration × Db :=
  match db.integrations.find? (fun r => r.name == integration) with
  | some r =>
    let r' := applyIntegrationUpdate data r
    (r', { db with
      integrations := db.integrations.map
        (fun x => if x.id == r.id then r' else x) })
  | none =>
    let r : McpIntegration :=
      { id := db.nextIntegrationId
        name := integration
        registeredAuthorizationUrl := data.registeredAuthorizationUrl
        registeredTokenUrl := data.registeredTokenUrl
        registeredServerUrl := data.registeredServerUrl
        oauthClientId := data.oauthClientId
        oauthClientSecret := data.oauthClientSecret }
    (r, { db with
      integrations := db.integrations ++ [r]
      nextIntegrationId := db.nextIntegrationId + 1 })

/-- One outbound network call of the module, in the order performed. -/
inductive NetCall where
  | protectedResourceDiscovery (url : String)
  | authServerMetadataDiscovery (url : String)
  | clientRegistration (endpoint : String)
  | authorizationCodeExchange (endpoint : Option String)
  | refreshTokenExchange (endpoint : Option String)
deriving DecidableEq

/-- The network: the MCP SDK client functions the module calls, as oracles.
Each oracle either returns the parsed response or throws. -/
structure NetEnv where
  discoverOAuthProtectedResourceMetadata :
    String → Except String (Option ProtectedResourceMetadata)
  discoverAuthorizationServerMetadata :
    String → Except String (Option AuthServerMetadata)
  registerClient :
    String → OAuthClientMetadata → Except String OAuthClientInformation
  exchangeAuthorization :
    Option String → OAuthClientInformation → String → String → String →
      Except String OAuthTokens
  refreshAuthorization :
    Option String → OAuthClientInformation → String →
      Except String OAuthTokens

/-- The call environment: network oracles, the integration catalog (an
external collaborator, abstracted as lookups) and the clock. -/
structure Env where
  net : NetEnv
  getIntegration : String → Option IntegrationConfig
  getStaticCredentials : String → Option StaticCredentials
  now : Int

instance {ε α : Type} [DecidableEq ε] [DecidableEq α] :
    DecidableEq (Except ε α) := fun a b =>
  match a, b with
  | .error x, .error y => decidable_of_iff (x = y) (by simp)
  | .error _, .ok _ => isFalse (fun hc => Except.noConfusion hc)
  | .ok _, .error _ => isFalse (fun hc => Except.noConfusion hc)
  | .ok x, .ok y => decidable_of_iff (x = y) (by simp)

/-- Result of one embedded operation: the value or the thrown error message,
the store after the call, and the network calls performed. -/
abbrev MR (α : Type) := Except String α × Db × List NetCall

/-- Message of the catalog's failure on an unknown integration key. -/
def unknownIntegrationMsg (integration : String) : String :=
  s!"Unknown integration: {integration}"

/-- Message thrown when the integration has no configured server URL. -/
def noServerUrlMsg (integration : String) : String :=
  s!"No server URL configured for {integration}"

/-- Message thrown by `getValidAccessToken` when no connection row or no
access token exists (the not-connected error). -/
def notConnectedMsg (integration : String) : String :=
  s!"No access token found for {integration}. Please connect the integration first."

/-- Message thrown by `getValidAccessToken` when the token is expired and no
refresh token is available (the reconnect-required error). -/
def reconnectRequiredMsg (integration : String) : String :=
  s!"Access token for {integration} has expired and no refresh token is available. Please reconnect."

/-- Message thrown by `refreshOAuthTokens` when the connection has no
refresh token. -/
def noRefreshTokenMsg (integration emailAccountId : String) : String :=
  s!"No refresh token found for {integration} connection {emailAccountId}"

/-- Message thrown by `getOAuthClient` when dynamic registration is needed
but no `redirectUri` was supplied. -/
def redirectUriRequiredMsg (integration : String) : String :=
  s!"redirectUri is required for dynamic client registration for {integration}"

/-- Message thrown by `getOAuthClient` when the discovered metadata has no
registration endpoint. -/
def noDynamicRegistrationMsg (integration : String) : String :=
  s!"Dynamic registration not supported for {integration}. Please configure static OAuth credentials."

/-- Message thrown by `discoverMetadata` when discovery failed and no
fallback OAuth config exists. -/
def discoveryFailedMsg (integration : String) : String :=
  s!"Could not discover OAuth endpoints for {integration}. Server may not support OAuth discovery and no fallback config is available."

/-- Message thrown by `getAuthToken` on the api-token path when no API key
is stored. -/
def noApiKeyMsg (integration : String) : String :=
  s!"No API key found for {integration}. Please configure the integration first."

/-- The source's `createAuthServerMetadata`: builds a metadata document from
an issuer and explicit endpoints; the `registration_endpoint` field is
spread in only when truthy. -/
def createAuthServerMetadata (issuer authorizationEndpoint tokenEndpoint :
    String) (registrationEndpoint : Option String := none) :
    AuthServerMetadata :=
  { issuer
    authorization_endpoint := some authorizationEndpoint
    token_endpoint := some tokenEndpoint
    registration_endpoint :=
      if truthyStr registrationEndpoint then registrationEndpoint else none
    grant_types_supported := some ["authorization_code", "refresh_token"]
    response_types_supported := some ["code"]
    token_endpoint_auth_methods_supported := some ["none"]
    code_challenge_methods_supported := some ["S256", "plain"] }

/-- The cache check at the top of `discoverMetadata`: the stored row's
endpoints are used when both are truthy AND the stored
`registeredServerUrl` strictly equals the current `serverUrl`. -/
def cachedMetadata (db : Db) (serverUrl integration : String) :
    Option AuthServerMetadata :=
  match findMcpIntegration db integration with
  | none => none
  | some stored =>
    match stored.registeredAuthorizationUrl, stored.registeredTokenUrl with
    | some au, some tu =>
      if !au.isEmpty && !tu.isEmpty &&
          stored.registeredServerUrl == some serverUrl then
        some (createAuthServerMetadata serverUrl au tu)
      else none
    | _, _ => none

/-- The optional protected-resource step of `discoverMetadata` (RFC 9728):
its own failure is swallowed; a truthy first `authorization_servers` entry
replaces the server URL, anything else leaves it unchanged. -/
def resolveAuthServerUrl (env : Env) (serverUrl : String) : String :=
  match env.net.discoverOAuthProtectedResourceMetadata serverUrl with
  | .ok (some rm) =>
    match rm.authorization_servers with
    | some (u :: _) => if u.isEmpty then serverUrl else u
    | _ => serverUrl
  | _ => serverUrl

/-- The catch branch of `discoverMetadata`: fall back to the integration's
static `oauthConfig` when present (build metadata from it and persist it as
the cache), otherwise rethrow as the discovery error. -/
def discoverMetadataFallback (db : Db) (serverUrl integration : String)
    (integrationConfig : IntegrationConfig) (calls : List NetCall) :
    MR AuthServerMetadata :=
  match integrationConfig.oauthConfig with
  | some cfg =>
    let metadata := createAuthServerMetadata serverUrl
      cfg.authorization_endpoint cfg.token_endpoint cfg.registration_endpoint
    let db' := (upsertMcpIntegration db integration
      { registeredAuthorizationUrl := metadata.authorization_endpoint
        registeredTokenUrl := metadata.token_endpoint
        registeredServerUrl := some serverUrl }).2
    (.ok metadata, db', calls)
  | none => (.error (discoveryFailedMsg integration), db, calls)

/-- The live-discovery try block of `discoverMetadata`: the optional
protected-resource step, the required authorization-server metadata step,
the cache write on success, and the fallback on any failure. -/
def discoverMetadataLive (env : Env) (db : Db)
    (serverUrl integration : String)
    (integrationConfig : IntegrationConfig) : MR AuthServerMetadata :=
  let authServerUrl := resolveAuthServerUrl env serverUrl
  let calls := [NetCall.protectedResourceDiscovery serverUrl,
    NetCall.authServerMetadataDiscovery authServerUrl]
  match env.net.discoverAuthorizationServerMetadata authServerUrl with
  | .ok (some metadata) =>
    let db' := (upsertMcpIntegration db integration
      { registeredAuthorizationUrl := metadata.authorization_endpoint
        registeredTokenUrl := metadata.token_endpoint
        registeredServerUrl := some serverUrl }).2
    (.ok metadata, db', calls)
  | .ok none =>
    discoverMetadataFallback db serverUrl integration integrationConfig calls
  | .error _ =>
    discoverMetadataFallback db serverUrl integration integrationConfig calls

/-- The source's `discoverMetadata(serverUrl, integration)`: cache hit when
the stored endpoints exist and the stored server URL matches, otherwise
live discovery with fallback. -/
def discoverMetadata (env : Env) (db : Db) (serverUrl integration : String) :
    MR AuthServerMetadata :=
  match env.getIntegration integration with
  | none => (.error (unknownIntegrationMsg integration), db, [])
  | some integrationConfig =>
    match cachedMetadata db serverUrl integration with
    | some metadata => (.ok metadata, db, [])
    | none =>
      discoverMetadataLive env db serverUrl integration integrationConfig

/-- JavaScript's `String.prototype.endsWith`, on the character list (the
suffixes used here are ASCII, where characters and UTF-16 units agree). -/
def strEndsWith (s suffix : String) : Bool :=
  suffix.data.isSuffixOf s.data

/-- JavaScript's `s.slice(0, -n)`: the string without its last `n`
characters (again ASCII-exact). -/
def strDropRight (s : String) (n : Nat) : String :=
  String.mk (s.data.take (s.data.length - n))

/-- The source's `getOAuthServerUrl`: OAuth discovery targets the base URL
when the server URL ends with `/mcp` (the suffix is sliced off), else the
server URL itself. -/
def getOAuthServerUrl (integrationConfig : IntegrationConfig) : String :=
  let serverUrl := match integrationConfig.serverUrl with
    | some s => s
    | none => ""
  if strEndsWith serverUrl "/mcp" then strDropRight serverUrl 4
  else serverUrl

/-- The source's `getMetadataForIntegration`: discovery against the OAuth
server URL derived from the integration's config. -/
def getMetadataForIntegration (env : Env) (db : Db)
    (integrationConfig : IntegrationConfig) (integration : String) :
    MR AuthServerMetadata :=
  discoverMetadata env db (getOAuthServerUrl integrationConfig) integration

/-- The source's `calculateTokenExpiration`: `expires_in` seconds added to
the clock when truthy, otherwise the conservative one-hour default. -/
def DEFAULT_TOKEN_EXPIRY_MS : Int := 60 * 60 * 1000

/-- Absolute expiry timestamp computed from the token response. -/
def calculateTokenExpiration (now : Int) (expiresIn : Option Int) : Int :=
  if truthyNum expiresIn then now + (expiresIn.getD 0) * 1000
  else now + DEFAULT_TOKEN_EXPIRY_MS

/-- The source's `getOAuthClient(integration, redirectUri?)`: static
credentials first, then stored dynamically-registered credentials, then
fresh dynamic registration (requiring a server URL, a redirect URI and a
discovered registration endpoint). -/
def getOAuthClient (env : Env) (db : Db) (integration : String)
    (redirectUri : Option String) : MR OAuthClientInformation :=
  match env.getIntegration integration with
  | none => (.error (unknownIntegrationMsg integration), db, [])
  | some integrationConfig =>
    let staticCreds := env.getStaticCredentials integration
    if truthyStr (staticCreds.bind (fun c => c.clientId)) then
      (.ok { client_id := (staticCreds.bind (fun c => c.clientId)).getD ""
             client_secret := staticCreds.bind (fun c => c.clientSecret) },
       db, [])
    else
      let stored := findMcpIntegration db integration
      if truthyStr (stored.bind (fun r => r.oauthClientId)) then
        (.ok { client_id := (stored.bind (fun r => r.oauthClientId)).getD ""
               client_secret :=
                 let sec := stored.bind (fun r => r.oauthClientSecret)
                 if truthyStr sec then sec else none },
         db, [])
      else if !(truthyStr integrationConfig.serverUrl) then
        (.error (noServerUrlMsg integration), db, [])
      else if !(truthyStr redirectUri) then
        (.error (redirectUriRequiredMsg integration), db, [])
      else
        let oauthServerUrl := getOAuthServerUrl integrationConfig
        let dres := discoverMetadata env db oauthServerUrl integration
        let db1 := dres.2.1
        let calls1 := dres.2.2
        match dres.1 with
        | .error e => (.error e, db1, calls1)
        | .ok metadata =>
          if !(truthyStr metadata.registration_endpoint) then
            (.error (noDynamicRegistrationMsg integration), db1, calls1)
          else
            let re := metadata.registration_endpoint.getD ""
            let clientMetadata : OAuthClientMetadata :=
              { client_name := "Inbox Zero"
                redirect_uris := [redirectUri.getD ""]
                grant_types := ["authorization_code", "refresh_token"]
                response_types := ["code"]
                token_endpoint_auth_method := "none"
                scope := String.intercalate " " integrationConfig.scopes }
            match env.net.registerClient re clientMetadata with
            | .error e =>
              (.error e, db1, calls1 ++ [NetCall.clientRegistration re])
            | .ok registered =>
              let db2 := (upsertMcpIntegration db1 integration
                { oauthClientId := some registered.client_id
                  oauthClientSecret := registered.client_secret }).2
              (.ok { client_id := registered.client_id
                     client_secret := registered.client_secret },
               db2, calls1 ++ [NetCall.clientRegistration re])

/-- The connection upsert of `handleOAuthCallback`, keyed on
`(emailAccountId, integrationId)`.  On the update path the refresh token is
`tokens.refresh_token || undefined` (a falsy response value leaves the
stored field unchanged); on the create path it is
`tokens.refresh_token || null`. -/
def upsertCallbackConnection (db : Db)
    (integration emailAccountId : String) (integrationId : Nat)
    (tokens : OAuthTokens) (expiresAt : Int) : Db :=
  match findConnectionByKey db emailAccountId integrationId with
  | some c =>
    let c' := { c with
      accessToken := some tokens.access_token
      refreshToken :=
        if truthyStr tokens.refresh_token then tokens.refresh_token
        else c.refreshToken
      expiresAt := some expiresAt
      isActive := true }
    let conns := db.connections.map (fun x => if x.id == c.id then c' else x)
    { db with connections := conns }
  | none =>
    { db with
      connections := db.connections ++
        [{ id := db.nextConnectionId
           name := integration
           emailAccountId
           integrationId
           accessToken := some tokens.access_token
           refreshToken :=
             if truthyStr tokens.refresh_token then tokens.refresh_token
             else none
           expiresAt := some expiresAt
           isActive := true
           apiKey := none }]
      nextConnectionId := db.nextConnectionId + 1 }

/-- The source's `handleOAuthCallback`: resolve the client and the metadata,
exchange the authorization code, upsert the `McpIntegration` row, compute
the expiry, and upsert the connection row. -/
def handleOAuthCallback (env : Env) (db : Db)
    (integration code codeVerifier redirectUri emailAccountId : String) :
    MR OAuthTokens :=
  match env.getIntegration integration with
  | none => (.error (unknownIntegrationMsg integration), db, [])
  | some integrationConfig =>
    if !(truthyStr integrationConfig.serverUrl) then
      (.error (noServerUrlMsg integration), db, [])
    else
      let cres := getOAuthClient env db integration (some redirectUri)
      let db1 := cres.2.1
      let calls1 := cres.2.2
      match cres.1 with
      | .error e => (.error e, db1, calls1)
      | .ok clientInfo =>
        let mres := getMetadataForIntegration env db1 integrationConfig
          integration
        let db2 := mres.2.1
        let calls2 := mres.2.2
        match mres.1 with
        | .error e => (.error e, db2, calls1 ++ calls2)
        | .ok metadata =>
          match env.net.exchangeAuthorization metadata.token_endpoint
              clientInfo code codeVerifier redirectUri with
          | .error e =>
            (.error e, db2, calls1 ++ calls2 ++
              [NetCall.authorizationCodeExchange metadata.token_endpoint])
          | .ok tokens =>
            let ures := upsertMcpIntegration db2 integration {}
            let dbIntegration := ures.1
            let db3 := ures.2
            let expiresAt :=
              calculateTokenExpiration env.now tokens.expires_in
            let db4 := upsertCallbackConnection db3 integration
              emailAccountId dbIntegration.id tokens expiresAt
            (.ok tokens, db4, calls1 ++ calls2 ++
              [NetCall.authorizationCodeExchange metadata.token_endpoint])

/-- The source's `refreshOAuthTokens`: re-read the connection, require a
refresh token, resolve client and metadata (with no redirect URI), perform
the refresh-token exchange, and update the connection row; a falsy new
refresh token keeps the previously stored one. -/
def refreshOAuthTokens (env : Env) (db : Db)
    (integration emailAccountId : String) : MR OAuthTokens :=
  match env.getIntegration integration with
  | none => (.error (unknownIntegrationMsg integration), db, [])
  | some integrationConfig =>
    if !(truthyStr integrationConfig.serverUrl) then
      (.error (noServerUrlMsg integration), db, [])
    else
      match findActiveConnection db emailAccountId integration with
      | none =>
        (.error (noRefreshTokenMsg integration emailAccountId), db, [])
      | some connection =>
        if !(truthyStr connection.refreshToken) then
          (.error (noRefreshTokenMsg integration emailAccountId), db, [])
        else
          let cres := getOAuthClient env db integration none
          let db1 := cres.2.1
          let calls1 := cres.2.2
          match cres.1 with
          | .error e => (.error e, db1, calls1)
          | .ok clientInfo =>
            let mres := getMetadataForIntegration env db1 integrationConfig
              integration
            let db2 := mres.2.1
            let calls2 := mres.2.2
            match mres.1 with
            | .error e => (.error e, db2, calls1 ++ calls2)
            | .ok metadata =>
              match env.net.refreshAuthorization metadata.token_endpoint
                  clientInfo (connection.refreshToken.getD "") with
              | .error e =>
                (.error e, db2, calls1 ++ calls2 ++
                  [NetCall.refreshTokenExchange metadata.token_endpoint])
              | .ok tokens =>
                let expiresAt :=
                  calculateTokenExpiration env.now tokens.expires_in
                let db3 := { db2 with
                  connections := db2.connections.map (fun c =>
                    if c.id == connection.id &&
                        c.emailAccountId == emailAccountId then
                      { c with
                        accessToken := some tokens.access_token
                        refreshToken :=
                          if truthyStr tokens.refresh_token then
                            tokens.refresh_token
                          else connection.refreshToken
                        expiresAt := some expiresAt }
                    else c) }
                (.ok tokens, db3, calls1 ++ calls2 ++
                  [NetCall.refreshTokenExchange metadata.token_endpoint])

/-- The source's `getValidAccessToken`: not-connected error without a truthy
access token; strict `<` expiry check against the clock; refresh when
expired with a refresh token; reconnect-required error when expired
without one; otherwise the stored token unchanged. -/
def getValidAccessToken (env : Env) (db : Db)
    (integration emailAccountId : String) : MR String :=
  let connection := findActiveConnection db emailAccountId integration
  if !(truthyStr (connection.bind (fun c => c.accessToken))) then
    (.error (notConnectedMsg integration), db, [])
  else
    match connection with
    | none => (.error (notConnectedMsg integration), db, [])
    | some c =>
      let isExpired := c.expiresAt.any (fun t => t < env.now)
      if isExpired && truthyStr c.refreshToken then
        let rres := refreshOAuthTokens env db integration emailAccountId
        match rres.1 with
        | .error e => (.error e, rres.2.1, rres.2.2)
        | .ok tokens => (.ok tokens.access_token, rres.2.1, rres.2.2)
      else if isExpired then
        (.error (reconnectRequiredMsg integration), db, [])
      else
        (.ok (c.accessToken.getD ""), db, [])

/-- The source's `getAuthToken`: api-token integrations read the stored
`apiKey` of an active connection; OAuth integrations delegate to
`getValidAccessToken`. -/
def getAuthToken (env : Env) (db : Db)
    (integration emailAccountId : String) : MR String :=
  match env.getIntegration integration with
  | none => (.error (unknownIntegrationMsg integration), db, [])
  | some integrationConfig =>
    match integrationConfig.authType with
    | .apiToken =>
      let connection := findActiveConnection db emailAccountId integration
      if truthyStr (connection.bind (fun c => c.apiKey)) then
        (.ok ((connection.bind (fun c => c.apiKey)).getD ""), db, [])
      else
        (.error (noApiKeyMsg integration), db, [])
    | .oauth => getValidAccessToken env db integration emailAccountId

/-- Number of refresh-token exchanges in a network-call trace. -/
def refreshCalls (trace : List NetCall) : Nat :=
  (trace.filter (fun c => match c with
    | .refreshTokenExchange _ => true
    | _ => false)).length

/-! Concrete fixtures used by witness and counterexample theorems. -/

/-- A network on which every outbound call throws. -/
def failNet : NetEnv :=
  { discoverOAuthProtectedResourceMetadata := fun _ => .error "network down"
    discoverAuthorizationServerMetadata := fun _ => .error "network down"
    registerClient := fun _ _ => .error "network down"
    exchangeAuthorization := fun _ _ _ _ _ => .error "network down"
    refreshAuthorization := fun _ _ _ => .error "network down" }

/-- An environment whose catalog knows the single integration `"acme"`. -/
def mkAcmeEnv (net : NetEnv) (cfg : IntegrationConfig)
    (creds : Option StaticCredentials) (now : Int) : Env :=
  { net
    getIntegration := fun key => if key == "acme" then some cfg else none
    getStaticCredentials := fun key => if key == "acme" then creds else none
    now }

/-- Catalog entry for the sample integration. -/
def acmeConfig : IntegrationConfig :=
  { serverUrl := some "https://mcp.acme.com/mcp"
    scopes := ["read"]
    authType := .oauth
    oauthConfig := none }

/-- Sample stored integration row. -/
def acmeRow : McpIntegration := { id := 1, name := "acme" }

/-- Sample store for the token-validity witnesses: one integration row and
one active connection whose token expires exactly at clock time 1000. -/
def dbBoundary : Db :=
  { integrations := [acmeRow]
    connections := [
      { id := 5, name := "acme", emailAccountId := "acct", integrationId := 1
        accessToken := some "tok", refreshToken := none
        expiresAt := some 1000, isActive := true, apiKey := none }]
    nextIntegrationId := 2
    nextConnectionId := 6 }

/-- Environment for the token-validity witnesses: clock at 1000, no usable
network. -/
def envBoundary : Env := mkAcmeEnv failNet acmeConfig none 1000

/-- A network whose discovery, registration, exchange and refresh all
succeed with fixed responses. -/
def okNet : NetEnv :=
  { discoverOAuthProtectedResourceMetadata := fun _ => .ok none
    discoverAuthorizationServerMetadata := fun _ => .ok (some
      { issuer := "https://auth.acme.com"
        authorization_endpoint := some "https://auth.acme.com/authorize"
        token_endpoint := some "https://auth.acme.com/token"
        registration_endpoint := some "https://auth.acme.com/register" })
    registerClient := fun _ _ => .ok { client_id := "dyn-client" }
    exchangeAuthorization := fun _ _ _ _ _ => .ok
      { access_token := "new-access" }
    refreshAuthorization := fun _ _ _ => .ok
      { access_token := "refreshed-access"
        refresh_token := some "rotated-refresh"
        expires_in := some 300 } }

/-- Stored integration row with a warm discovery cache for the base URL
`https://mcp.acme.com`. -/
def acmeCachedRow : McpIntegration :=
  { id := 1, name := "acme"
    registeredAuthorizationUrl := some "https://auth.acme.com/authorize"
    registeredTokenUrl := some "https://auth.acme.com/token"
    registeredServerUrl := some "https://mcp.acme.com" }

/-- Store holding only the warm-cache row. -/
def dbCached : Db :=
  { integrations := [acmeCachedRow], nextIntegrationId := 2 }

/-- Environment over the warm cache with a dead network. -/
def envCached : Env := mkAcmeEnv failNet acmeConfig none 0

/-- Catalog entry with a static fallback OAuth config. -/
def acmeFallbackConfig : IntegrationConfig :=
  { serverUrl := some "https://mcp.acme.com/mcp"
    scopes := ["read"]
    authType := .oauth
    oauthConfig := some
      { authorization_endpoint := "https://auth.acme.com/authorize"
        token_endpoint := "https://auth.acme.com/token"
        registration_endpoint := none } }

/-- Environment with the fallback config and a dead network. -/
def envFallback : Env := mkAcmeEnv failNet acmeFallbackConfig none 0

/-- The empty store. -/
def dbEmpty : Db := {}

/-- Static client credentials for the sample integration. -/
def credsStatic : StaticCredentials :=
  { clientId := some "static-client", clientSecret := some "shh" }

/-- Stored integration row carrying dynamically registered credentials
besides a stale cache (cached for a different server URL). -/
def acmeCredsRow : McpIntegration :=
  { id := 1, name := "acme"
    registeredAuthorizationUrl := some "https://old.example.com/authorize"
    registeredTokenUrl := some "https://old.example.com/token"
    registeredServerUrl := some "https://old.example.com"
    oauthClientId := some "stored-client"
    oauthClientSecret := some "stored-secret" }

/-- Store holding the credentials-bearing row. -/
def dbCreds : Db := { integrations := [acmeCredsRow], nextIntegrationId := 2 }

/-- Environment with a fully working network and no static credentials. -/
def envOkNet : Env := mkAcmeEnv okNet acmeConfig none 0

/-- Catalog entry with no server URL at all. -/
def noUrlConfig : IntegrationConfig := {}

/-- Environment whose integration has no server URL. -/
def envNoUrl : Env := mkAcmeEnv failNet noUrlConfig none 0

/-- All integration rows of the store have pairwise distinct primary keys
(the id column is the primary key). -/
def IntegrationIdsUnique (db : Db) : Prop :=
  ∀ a ∈ db.integrations, ∀ b ∈ db.integrations, a.id = b.id → a = b

instance (db : Db) : Decidable (IntegrationIdsUnique db) :=
  inferInstanceAs (Decidable (∀ a ∈ db.integrations,
    ∀ b ∈ db.integrations, a.id = b.id → a = b))

/-- All connection rows of the store have pairwise distinct primary keys
(the id column is the primary key). -/
def ConnectionIdsUnique (db : Db) : Prop :=
  ∀ a ∈ db.connections, ∀ b ∈ db.connections, a.id = b.id → a = b

instance (db : Db) : Decidable (ConnectionIdsUnique db) :=
  inferInstanceAs (Decidable (∀ a ∈ db.connections,
    ∀ b ∈ db.connections, a.id = b.id → a = b))

/-- The cache-hit metadata for the warm-cache fixtures. -/
def acmeCachedMetadata : AuthServerMetadata :=
  createAuthServerMetadata "https://mcp.acme.com"
    "https://auth.acme.com/authorize" "https://auth.acme.com/token"

/-- Expired connection holding a refresh token. -/
def connExpired : McpConnection :=
  { id := 5, name := "acme", emailAccountId := "acct", integrationId := 1
    accessToken := some "old-access", refreshToken := some "refresh-1"
    expiresAt := some 500, isActive := true, apiKey := none }

/-- Store for the refresh scenarios: warm cache plus the expired
connection. -/
def dbRefresh : Db :=
  { integrations := [acmeCachedRow], connections := [connExpired]
    nextIntegrationId := 2, nextConnectionId := 6 }

/-- Environment for the refresh scenarios: working network, static client
credentials, clock at 1000 (past the stored expiry 500). -/
def envRefresh : Env := mkAcmeEnv okNet acmeConfig (some credsStatic) 1000

/-- Existing connection that already holds a refresh token, targeted by the
callback upsert's update path. -/
def connWithOldRefresh : McpConnection :=
  { id := 5, name := "acme", emailAccountId := "acct", integrationId := 1
    accessToken := some "old-access", refreshToken := some "old-refresh"
    expiresAt := some 500, isActive := true, apiKey := none }

/-- Store for the callback update-path scenario. -/
def dbCallback : Db :=
  { integrations := [acmeCachedRow], connections := [connWithOldRefresh]
    nextIntegrationId := 2, nextConnectionId := 6 }

/-- Environment for the callback scenario (its exchange response carries no
refresh token). -/
def envCallback : Env := mkAcmeEnv okNet acmeConfig (some credsStatic) 1000

/-- Active connection whose token expires strictly in the future. -/
def connFuture : McpConnection :=
  { id := 5, name := "acme", emailAccountId := "acct", integrationId := 1
    accessToken := some "tok", refreshToken := none
    expiresAt := some 2000, isActive := true, apiKey := none }

/-- Store holding the future-expiry connection. -/
def dbFuture : Db :=
  { integrations := [acmeRow], connections := [connFuture]
    nextIntegrationId := 2, nextConnectionId := 6 }

/-- Expired connection with no refresh token. -/
def connExpiredBare : McpConnection :=
  { id := 5, name := "acme", emailAccountId := "acct", integrationId := 1
    accessToken := some "tok", refreshToken := none
    expiresAt := some 500, isActive := true, apiKey := none }

/-- Store holding the expired, unrefreshable connection. -/
def dbExpiredBare : Db :=
  { integrations := [acmeRow], connections := [connExpiredBare]
    nextIntegrationId := 2, nextConnectionId := 6 }

end McpOauth

namespace McpOauth

/-- A nonempty optional string is truthy. -/
theorem truthyStr_some_of_ne (s : String) (h : s ≠ "") :
    truthyStr (some s) = true := by
  show (!s.isEmpty) = true
  cases hE : s.isEmpty with
  | false => rfl
  | true => exact absurd ((String.isEmpty_iff s).mp hE) h

/-- An integration upsert leaves the connections table untouched. -/
theorem upsertMcpIntegration_connections (db : Db) (n : String)
    (data : IntegrationUpdateData) :
    (upsertMcpIntegration db n data).2.connections = db.connections := by
  unfold upsertMcpIntegration
  split <;> rfl

/-- The fallback branch returns the trace it was handed. -/
theorem discoverMetadataFallback_trace (db : Db)
    (serverUrl integration : String) (cfg : IntegrationConfig)
    (calls : List NetCall) :
    (discoverMetadataFallback db serverUrl integration cfg calls).2.2 =
      calls := by
  unfold discoverMetadataFallback
  split <;> rfl

/-- The fallback branch leaves the connections table untouched. -/
theorem discoverMetadataFallback_connections (db : Db)
    (serverUrl integration : String) (cfg : IntegrationConfig)
    (calls : List NetCall) :
    (discoverMetadataFallback db serverUrl integration cfg calls).2.1.connections =
      db.connections := by
  unfold discoverMetadataFallback
  split
  · exact upsertMcpIntegration_connections ..
  · rfl

/-- Live discovery performs exactly the protected-resource probe followed by
the authorization-server metadata lookup, whatever their outcomes. -/
theorem discoverMetadataLive_trace (env : Env) (db : Db)
    (serverUrl integration : String) (cfg : IntegrationConfig) :
    (discoverMetadataLive env db serverUrl integration cfg).2.2 =
      [NetCall.protectedResourceDiscovery serverUrl,
       NetCall.authServerMetadataDiscovery
         (resolveAuthServerUrl env serverUrl)] := by
  unfold discoverMetadataLive
  cases h : env.net.discoverAuthorizationServerMetadata
      (resolveAuthServerUrl env serverUrl) with
  | error e => simp [h, discoverMetadataFallback_trace]
  | ok v =>
    cases v with
    | none => simp [h, discoverMetadataFallback_trace]
    | some m => simp [h]

/-- Live discovery leaves the connections table untouched. -/
theorem discoverMetadataLive_connections (env : Env) (db : Db)
    (serverUrl integration : String) (cfg : IntegrationConfig) :
    (discoverMetadataLive env db serverUrl integration cfg).2.1.connections =
      db.connections := by
  unfold discoverMetadataLive
  cases h : env.net.discoverAuthorizationServerMetadata
      (resolveAuthServerUrl env serverUrl) with
  | error e => simp [h, discoverMetadataFallback_connections]
  | ok v =>
    cases v with
    | none => simp [h, discoverMetadataFallback_connections]
    | some m => simp [h, upsertMcpIntegration_connections]

/-- Discovery never touches the connections table. -/
theorem discoverMetadata_connections (env : Env) (db : Db)
    (serverUrl integration : String) :
    (discoverMetadata env db serverUrl integration).2.1.connections =
      db.connections := by
  unfold discoverMetadata
  cases hc : env.getIntegration integration with
  | none => rfl
  | some cfg =>
    simp only [hc]
    cases hm : cachedMetadata db serverUrl integration with
    | none => simp [discoverMetadataLive_connections]
    | some m => rfl

/-- Discovery performs no refresh-token exchange. -/
theorem discoverMetadata_refreshCalls (env : Env) (db : Db)
    (serverUrl integration : String) :
    refreshCalls (discoverMetadata env db serverUrl integration).2.2 = 0 := by
  unfold discoverMetadata
  cases hc : env.getIntegration integration with
  | none => rfl
  | some cfg =>
    simp only [hc]
    cases hm : cachedMetadata db serverUrl integration with
    | none => rw [discoverMetadataLive_trace]; rfl
    | some m => rfl

/-- Counting refresh exchanges distributes over trace concatenation. -/
theorem refreshCalls_append (a b : List NetCall) :
    refreshCalls (a ++ b) = refreshCalls a + refreshCalls b := by
  simp [refreshCalls, List.filter_append]

/-- Client resolution never touches the connections table. -/
theorem getOAuthClient_connections (env : Env) (db : Db)
    (integration : String) (redirectUri : Option String) :
    (getOAuthClient env db integration redirectUri).2.1.connections =
      db.connections := by
  unfold getOAuthClient
  cases hc : env.getIntegration integration with
  | none => rfl
  | some cfg =>
    simp only [hc]
    split
    · rfl
    · split
      · rfl
      · split
        · rfl
        · split
          · rfl
          · cases hd : (discoverMetadata env db
                (getOAuthServerUrl cfg) integration).1 with
            | error e => simp [hd, discoverMetadata_connections]
            | ok metadata =>
              simp only [hd]
              split
              · simp [discoverMetadata_connections]
              · split
                · simp [discoverMetadata_connections]
                · simp [upsertMcpIntegration_connections,
                    discoverMetadata_connections]

/-- Client resolution performs no refresh-token exchange. -/
theorem getOAuthClient_refreshCalls (env : Env) (db : Db)
    (integration : String) (redirectUri : Option String) :
    refreshCalls (getOAuthClient env db integration redirectUri).2.2 = 0 := by
  unfold getOAuthClient
  cases hc : env.getIntegration integration with
  | none => rfl
  | some cfg =>
    simp only [hc]
    split
    · rfl
    · split
      · rfl
      · split
        · rfl
        · split
          · rfl
          · cases hd : (discoverMetadata env db
                (getOAuthServerUrl cfg) integration).1 with
            | error e => simp [hd, discoverMetadata_refreshCalls]
            | ok metadata =>
              simp only [hd]
              split
              · simp [discoverMetadata_refreshCalls]
              · split
                · rw [refreshCalls_append,
                    discoverMetadata_refreshCalls]
                  rfl
                · rw [refreshCalls_append,
                    discoverMetadata_refreshCalls]
                  rfl

/-- Updating the row an upsert targets does not hide it from a subsequent
lookup by name: the lookup yields the updated row. -/
theorem find?_name_map_update (l : List McpIntegration) (n : String)
    (r r' : McpIntegration)
    (h : l.find? (fun x => x.name == n) = some r)
    (h' : (r'.name == n) = true) :
    (l.map (fun x => if x.id == r.id then r' else x)).find?
      (fun x => x.name == n) = some r' := by
  induction l with
  | nil => simp at h
  | cons a l ih =>
    by_cases ha : (a.name == n) = true
    · rw [List.find?_cons_of_pos (p := fun x : McpIntegration => x.name == n) _ ha] at h
      injection h with h
      subst h
      simp only [List.map_cons, BEq.refl, if_true]
      exact List.find?_cons_of_pos _ h'
    · rw [List.find?_cons_of_neg (p := fun x : McpIntegration => x.name == n) _
        (by simp [ha])] at h
      by_cases hid : (a.id == r.id) = true
      · simp only [List.map_cons, hid, if_true]
        exact List.find?_cons_of_pos _ h'
      · simp only [List.map_cons, hid, Bool.false_eq_true, if_false]
        rw [List.find?_cons_of_neg (p := fun x : McpIntegration => x.name == n) _
          (by simp [ha]), ih h]

/-- After an upsert, looking the integration up by name yields exactly the
row the upsert produced. -/
theorem findMcpIntegration_upsert_self (db : Db) (n : String)
    (data : IntegrationUpdateData) :
    findMcpIntegration (upsertMcpIntegration db n data).2 n =
      some (upsertMcpIntegration db n data).1 := by
  unfold findMcpIntegration upsertMcpIntegration
  cases h : db.integrations.find? (fun r => r.name == n) with
  | none => simp [List.find?_append, h, List.find?_singleton]
  | some r =>
    simp only [h]
    exact find?_name_map_update _ _ _ _ h
      (by
        have hn : (applyIntegrationUpdate data r).name = r.name := rfl
        rw [hn]
        exact List.find?_some (p := fun x : McpIntegration => x.name == n) h)

end McpOauth

namespace McpOauth

/-- C7: for a configured serverUrl ending in the 4-character suffix
`"/mcp"`, `getOAuthServerUrl` yields the serverUrl with that suffix
removed, and that is the URL `getMetadataForIntegration` passes to
discovery; a serverUrl not ending in `"/mcp"` is passed unchanged. -/
theorem c7_oauth_server_url (integrationConfig : IntegrationConfig)
    (u : String) (hu : integrationConfig.serverUrl = some u) :
    (strEndsWith u "/mcp" = true →
      getOAuthServerUrl integrationConfig = strDropRight u 4 ∧
      ∀ env db integration,
        getMetadataForIntegration env db integrationConfig integration =
          discoverMetadata env db (strDropRight u 4) integration) ∧
    (strEndsWith u "/mcp" = false →
      getOAuthServerUrl integrationConfig = u ∧
      ∀ env db integration,
        getMetadataForIntegration env db integrationConfig integration =
          discoverMetadata env db u integration) := by
  unfold getMetadataForIntegration getOAuthServerUrl
  rw [hu]
  constructor
  · intro h
    simp [h]
  · intro h
    simp [h]

/-- Witness for C7 at the spec's own scenario URL. -/
theorem c7_witness :
    getOAuthServerUrl { serverUrl := some "https://mcp.acme.com/mcp" } =
      "https://mcp.acme.com" ∧
    getOAuthServerUrl { serverUrl := some "https://plain.example.org" } =
      "https://plain.example.org" := by
  constructor
  · exact ((c7_oauth_server_url
      { serverUrl := some "https://mcp.acme.com/mcp" }
      "https://mcp.acme.com/mcp" rfl).1 (by decide)).1
  · exact ((c7_oauth_server_url
      { serverUrl := some "https://plain.example.org" }
      "https://plain.example.org" rfl).2 (by decide)).1

/-- C10: a connection whose `expiresAt` equals the clock exactly is not
treated as expired (the check is a strict less-than), so the stored access
token is returned with no refresh attempt, no store change and no network
call. -/
theorem c10_expiry_boundary (env : Env) (db : Db)
    (integration emailAccountId : String) (c : McpConnection) (tok : String)
    (hfind : findActiveConnection db emailAccountId integration = some c)
    (htok : c.accessToken = some tok) (hne : tok ≠ "")
    (hexp : c.expiresAt = some env.now) :
    getValidAccessToken env db integration emailAccountId =
      (.ok tok, db, []) := by
  unfold getValidAccessToken
  rw [hfind]
  simp [truthyStr, htok, hexp, hne, String.isEmpty_iff]

/-- Witness for C10: clock 1000, stored expiry exactly 1000. -/
theorem c10_witness :
    getValidAccessToken envBoundary dbBoundary "acme" "acct" =
      (.ok "tok", dbBoundary, []) := by
  have h : findActiveConnection dbBoundary "acct" "acme" =
      some { id := 5, name := "acme", emailAccountId := "acct"
             integrationId := 1, accessToken := some "tok"
             refreshToken := none, expiresAt := some 1000
             isActive := true, apiKey := none } := by decide
  exact c10_expiry_boundary envBoundary dbBoundary "acme" "acct" _ "tok" h
    rfl (by decide) rfl

/-- C4 counterexample: a token response that carries `expires_in = 0`
(zero seconds) is given the one-hour default expiry, not `now + 0`,
because the source tests `expires_in` for truthiness. -/
theorem c4_counterexample_zero_expires_in :
    calculateTokenExpiration 0 (some 0) = DEFAULT_TOKEN_EXPIRY_MS ∧
    DEFAULT_TOKEN_EXPIRY_MS ≠ 0 + 0 * 1000 := by decide

/-- C4 (amended): a truthy (nonzero) `expires_in` of n seconds yields
`expiresAt = now + n` seconds; an absent or zero `expires_in` yields
exactly `now` plus the one-hour default. -/
theorem c4_token_expiration (now : Int) (expiresIn : Option Int) :
    (∀ n : Int, expiresIn = some n → n ≠ 0 →
      calculateTokenExpiration now expiresIn = now + n * 1000) ∧
    ((expiresIn = none ∨ expiresIn = some 0) →
      calculateTokenExpiration now expiresIn = now + DEFAULT_TOKEN_EXPIRY_MS) ∧
    DEFAULT_TOKEN_EXPIRY_MS = 60 * 60 * 1000 := by
  refine ⟨?_, ?_, rfl⟩
  · rintro n rfl hn
    simp [calculateTokenExpiration, truthyNum, hn]
  · rintro (rfl | rfl) <;> simp [calculateTokenExpiration, truthyNum]

/-- Witness for C4 at concrete inputs. -/
theorem c4_witness :
    calculateTokenExpiration 50 (some 120) = 50 + 120 * 1000 ∧
    calculateTokenExpiration 50 none = 50 + DEFAULT_TOKEN_EXPIRY_MS :=
  ⟨(c4_token_expiration 50 (some 120)).1 120 rfl (by decide),
   (c4_token_expiration 50 none).2.1 (Or.inl rfl)⟩

/-- The upsert's resulting row carries exactly the discovery fields the
data sets. -/
theorem upsertMcpIntegration_row_discovery_fields (db : Db) (n : String)
    (data : IntegrationUpdateData) (au tu su : String)
    (hau : data.registeredAuthorizationUrl = some au)
    (htu : data.registeredTokenUrl = some tu)
    (hsu : data.registeredServerUrl = some su) :
    (upsertMcpIntegration db n data).1.registeredAuthorizationUrl = some au ∧
    (upsertMcpIntegration db n data).1.registeredTokenUrl = some tu ∧
    (upsertMcpIntegration db n data).1.registeredServerUrl = some su := by
  unfold upsertMcpIntegration
  cases h : db.integrations.find? (fun r => r.name == n) <;>
    simp [applyIntegrationUpdate, hau, htu, hsu]

/-- The cache check, expressed over the row the lookup returned. -/
theorem cachedMetadata_of_found (db : Db) (serverUrl n : String)
    (stored : McpIntegration) (h : findMcpIntegration db n = some stored) :
    cachedMetadata db serverUrl n =
      match stored.registeredAuthorizationUrl,
          stored.registeredTokenUrl with
      | some au, some tu =>
        if !au.isEmpty && !tu.isEmpty &&
            stored.registeredServerUrl == some serverUrl then
          some (createAuthServerMetadata serverUrl au tu)
        else none
      | _, _ => none := by
  unfold cachedMetadata
  rw [h]

/-- After a discovery cache write, the cache hits for the written server
URL and returns metadata built from the written endpoints. -/
theorem cachedMetadata_after_write (db : Db) (n serverUrl au tu : String)
    (hau : au ≠ "") (htu : tu ≠ "") :
    cachedMetadata (upsertMcpIntegration db n
      { registeredAuthorizationUrl := some au
        registeredTokenUrl := some tu
        registeredServerUrl := some serverUrl }).2 serverUrl n =
      some (createAuthServerMetadata serverUrl au tu) := by
  obtain ⟨h1, h2, h3⟩ := upsertMcpIntegration_row_discovery_fields db n
    { registeredAuthorizationUrl := some au
      registeredTokenUrl := some tu
      registeredServerUrl := some serverUrl } au tu serverUrl rfl rfl rfl
  rw [cachedMetadata_of_found _ _ _ _ (findMcpIntegration_upsert_self db n
    { registeredAuthorizationUrl := some au
      registeredTokenUrl := some tu
      registeredServerUrl := some serverUrl })]
  simp [h1, h2, h3, hau, htu, String.isEmpty_iff]

/-- C2: with both endpoints cached and the cached server URL equal to the
one being discovered, `discoverMetadata` returns metadata built from the
cached endpoints, makes no network call and leaves the store unchanged;
with a cached server URL different from the current one the cache is
ignored and live discovery is performed (the protected-resource probe and
the authorization-server metadata lookup go out). -/
theorem c2_discovery_cache (env : Env) (db : Db)
    (serverUrl integration : String)
    (integrationConfig : IntegrationConfig) (stored : McpIntegration)
    (hcfg : env.getIntegration integration = some integrationConfig)
    (hstored : findMcpIntegration db integration = some stored) :
    (∀ au tu, stored.registeredAuthorizationUrl = some au → au ≠ "" →
      stored.registeredTokenUrl = some tu → tu ≠ "" →
      stored.registeredServerUrl = some serverUrl →
      discoverMetadata env db serverUrl integration =
        (.ok (createAuthServerMetadata serverUrl au tu), db, [])) ∧
    (stored.registeredServerUrl ≠ some serverUrl →
      discoverMetadata env db serverUrl integration =
        discoverMetadataLive env db serverUrl integration
          integrationConfig ∧
      (discoverMetadata env db serverUrl integration).2.2 =
        [NetCall.protectedResourceDiscovery serverUrl,
         NetCall.authServerMetadataDiscovery
           (resolveAuthServerUrl env serverUrl)]) := by
  constructor
  · intro au tu hau hau' htu htu' hsrv
    have hcache : cachedMetadata db serverUrl integration =
        some (createAuthServerMetadata serverUrl au tu) := by
      rw [cachedMetadata_of_found _ _ _ _ hstored]
      simp [hau, htu, hau', htu', hsrv, String.isEmpty_iff]
    unfold discoverMetadata
    rw [hcfg, hcache]
  · intro hne
    have hcache : cachedMetadata db serverUrl integration = none := by
      rw [cachedMetadata_of_found _ _ _ _ hstored]
      have hbeq : (stored.registeredServerUrl == some serverUrl) =
          false := by
        simpa using hne
      cases hA : stored.registeredAuthorizationUrl with
      | none => rfl
      | some au =>
        cases hT : stored.registeredTokenUrl with
        | none => rfl
        | some tu => simp [hbeq]
    refine ⟨?_, ?_⟩
    · unfold discoverMetadata
      rw [hcfg, hcache]
    · unfold discoverMetadata
      rw [hcfg, hcache]
      exact discoverMetadataLive_trace ..

/-- Witness for C2: a warm cache answers with zero network calls; a changed
server URL goes out to the network. -/
theorem c2_witness :
    discoverMetadata envCached dbCached "https://mcp.acme.com" "acme" =
      (.ok (createAuthServerMetadata "https://mcp.acme.com"
        "https://auth.acme.com/authorize" "https://auth.acme.com/token"),
       dbCached, []) ∧
    (discoverMetadata envCached dbCached "https://changed.example.com"
        "acme").2.2 =
      [NetCall.protectedResourceDiscovery "https://changed.example.com",
       NetCall.authServerMetadataDiscovery
         (resolveAuthServerUrl envCached "https://changed.example.com")] := by
  constructor
  · exact (c2_discovery_cache envCached dbCached "https://mcp.acme.com"
      "acme" acmeConfig acmeCachedRow (by decide) (by decide)).1
      "https://auth.acme.com/authorize" "https://auth.acme.com/token"
      rfl (by decide) rfl (by decide) rfl
  · exact ((c2_discovery_cache envCached dbCached
      "https://changed.example.com" "acme" acmeConfig acmeCachedRow
      (by decide) (by decide)).2 (by decide)).2

/-- C3: when the required authorization-server metadata lookup fails on a
cache miss, a configured static fallback is turned into metadata,
persisted as the cache (the immediately following call is a cache hit with
zero network calls) and returned; with no fallback the call fails with the
discovery error, leaving the store unchanged. -/
theorem c3_discovery_fallback (env : Env) (db : Db)
    (serverUrl integration : String)
    (integrationConfig : IntegrationConfig)
    (hcfg : env.getIntegration integration = some integrationConfig)
    (hmiss : cachedMetadata db serverUrl integration = none)
    (hfail : ∀ m, env.net.discoverAuthorizationServerMetadata
      (resolveAuthServerUrl env serverUrl) ≠ .ok (some m)) :
    (∀ fc, integrationConfig.oauthConfig = some fc →
      fc.authorization_endpoint ≠ "" → fc.token_endpoint ≠ "" →
      (discoverMetadata env db serverUrl integration).1 =
        .ok (createAuthServerMetadata serverUrl fc.authorization_endpoint
          fc.token_endpoint fc.registration_endpoint) ∧
      discoverMetadata env
          (discoverMetadata env db serverUrl integration).2.1
          serverUrl integration =
        (.ok (createAuthServerMetadata serverUrl fc.authorization_endpoint
           fc.token_endpoint),
         (discoverMetadata env db serverUrl integration).2.1, [])) ∧
    (integrationConfig.oauthConfig = none →
      discoverMetadata env db serverUrl integration =
        (.error (discoveryFailedMsg integration), db,
         [NetCall.protectedResourceDiscovery serverUrl,
          NetCall.authServerMetadataDiscovery
            (resolveAuthServerUrl env serverUrl)])) := by
  have hrun : discoverMetadata env db serverUrl integration =
      discoverMetadataFallback db serverUrl integration integrationConfig
        [NetCall.protectedResourceDiscovery serverUrl,
         NetCall.authServerMetadataDiscovery
           (resolveAuthServerUrl env serverUrl)] := by
    unfold discoverMetadata
    rw [hcfg, hmiss]
    unfold discoverMetadataLive
    cases hnet : env.net.discoverAuthorizationServerMetadata
        (resolveAuthServerUrl env serverUrl) with
    | error e => simp [hnet]
    | ok v =>
      cases v with
      | none => simp [hnet]
      | some m => exact absurd hnet (hfail m)
  constructor
  · intro fc hfc hau htu
    constructor
    · rw [hrun]
      unfold discoverMetadataFallback
      rw [hfc]
    · have hdb : (discoverMetadata env db serverUrl integration).2.1 =
          (upsertMcpIntegration db integration
            { registeredAuthorizationUrl := some fc.authorization_endpoint
              registeredTokenUrl := some fc.token_endpoint
              registeredServerUrl := some serverUrl }).2 := by
        rw [hrun]
        unfold discoverMetadataFallback
        rw [hfc]
        rfl
      rw [hdb]
      have hcache2 := cachedMetadata_after_write db integration serverUrl
        fc.authorization_endpoint fc.token_endpoint hau htu
      unfold discoverMetadata
      rw [hcfg, hcache2]
  · intro hnone
    rw [hrun]
    unfold discoverMetadataFallback
    rw [hnone]

/-- Witness for C3: dead network plus static fallback, then the persisted
cache answers the second call. -/
theorem c3_witness :
    (discoverMetadata envFallback dbEmpty "https://mcp.acme.com"
        "acme").1 =
      .ok (createAuthServerMetadata "https://mcp.acme.com"
        "https://auth.acme.com/authorize" "https://auth.acme.com/token"
        none) ∧
    discoverMetadata envFallback
        (discoverMetadata envFallback dbEmpty "https://mcp.acme.com"
          "acme").2.1 "https://mcp.acme.com" "acme" =
      (.ok (createAuthServerMetadata "https://mcp.acme.com"
         "https://auth.acme.com/authorize" "https://auth.acme.com/token"),
       (discoverMetadata envFallback dbEmpty "https://mcp.acme.com"
         "acme").2.1, []) := by
  have h := (c3_discovery_fallback envFallback dbEmpty
    "https://mcp.acme.com" "acme" acmeFallbackConfig (by decide)
    (by decide) (fun m hm => Except.noConfusion hm)).1
    { authorization_endpoint := "https://auth.acme.com/authorize"
      token_endpoint := "https://auth.acme.com/token"
      registration_endpoint := none } rfl (by decide) (by decide)
  exact h

/-- C6: with no truthy static credentials and no truthy stored client id,
`getOAuthClient` fails with the configuration error before any network
call — on a missing server URL, and on a missing (or empty) redirect URI —
in both cases returning the store unchanged and an empty network trace. -/
theorem c6_registration_requires_config (env : Env) (db : Db)
    (integration : String) (redirectUri : Option String)
    (integrationConfig : IntegrationConfig)
    (hcfg : env.getIntegration integration = some integrationConfig)
    (hstatic : truthyStr ((env.getStaticCredentials integration).bind
      (fun c => c.clientId)) = false)
    (hstored : truthyStr ((findMcpIntegration db integration).bind
      (fun r => r.oauthClientId)) = false) :
    (truthyStr integrationConfig.serverUrl = false →
      getOAuthClient env db integration redirectUri =
        (.error (noServerUrlMsg integration), db, [])) ∧
    (truthyStr integrationConfig.serverUrl = true →
      truthyStr redirectUri = false →
      getOAuthClient env db integration redirectUri =
        (.error (redirectUriRequiredMsg integration), db, [])) := by
  constructor
  · intro hs
    unfold getOAuthClient
    rw [hcfg]
    simp [hstatic, hstored, hs]
  · intro hs hr
    unfold getOAuthClient
    rw [hcfg]
    simp [hstatic, hstored, hs, hr]

/-- Witness for C6: no credentials anywhere; a missing redirect URI and a
missing server URL each fail cleanly with no network call. -/
theorem c6_witness :
    getOAuthClient envCached dbEmpty "acme" none =
      (.error (redirectUriRequiredMsg "acme"), dbEmpty, []) ∧
    getOAuthClient envNoUrl dbEmpty "acme" (some "https://app/cb") =
      (.error (noServerUrlMsg "acme"), dbEmpty, []) := by
  constructor
  · exact (c6_registration_requires_config envCached dbEmpty "acme" none
      acmeConfig (by decide) (by decide) (by decide)).2 (by decide)
      (by decide)
  · exact (c6_registration_requires_config envNoUrl dbEmpty "acme"
      (some "https://app/cb") noUrlConfig (by decide) (by decide)
      (by decide)).1 (by decide)

/-- An integration upsert whose data carries no client credentials leaves
every row's stored credentials (and identity) unchanged. -/
theorem upsertMcpIntegration_preserves_credentials (db : Db) (n : String)
    (data : IntegrationUpdateData) (hcid : data.oauthClientId = none)
    (hsec : data.oauthClientSecret = none)
    (huniq : IntegrationIdsUnique db) (r : McpIntegration)
    (hr : r ∈ db.integrations) :
    ∃ r' ∈ (upsertMcpIntegration db n data).2.integrations,
      r'.id = r.id ∧ r'.name = r.name ∧
      r'.oauthClientId = r.oauthClientId ∧
      r'.oauthClientSecret = r.oauthClientSecret := by
  unfold upsertMcpIntegration
  cases h : db.integrations.find? (fun x => x.name == n) with
  | none =>
    refine ⟨r, ?_, rfl, rfl, rfl, rfl⟩
    simp [hr]
  | some s =>
    by_cases hid : (r.id == s.id) = true
    · have hs : s ∈ db.integrations := List.mem_of_find?_eq_some h
      have hrs : r = s := huniq r hr s hs (eq_of_beq hid)
      subst hrs
      refine ⟨applyIntegrationUpdate data r, ?_, rfl, rfl, ?_, ?_⟩
      · have hm := List.mem_map_of_mem
          (f := fun x => if x.id == r.id then applyIntegrationUpdate data r
            else x) hr
        simpa using hm
      · simp [applyIntegrationUpdate, hcid]
      · simp [applyIntegrationUpdate, hsec]
    · refine ⟨r, ?_, rfl, rfl, rfl, rfl⟩
      have hm := List.mem_map_of_mem
        (f := fun x => if x.id == s.id then applyIntegrationUpdate data s
          else x) hr
      simpa [hid] using hm

/-- C8: a discovery call (hence each of its cache writes) leaves every
stored row's dynamically registered client credentials unchanged: every
row of the store reappears afterwards with the same id, name, client id
and client secret. -/
theorem c8_discovery_preserves_credentials (env : Env) (db : Db)
    (serverUrl integration : String) (r : McpIntegration)
    (huniq : IntegrationIdsUnique db) (hr : r ∈ db.integrations) :
    ∃ r' ∈ (discoverMetadata env db serverUrl
        integration).2.1.integrations,
      r'.id = r.id ∧ r'.name = r.name ∧
      r'.oauthClientId = r.oauthClientId ∧
      r'.oauthClientSecret = r.oauthClientSecret := by
  unfold discoverMetadata
  cases hc : env.getIntegration integration with
  | none => exact ⟨r, hr, rfl, rfl, rfl, rfl⟩
  | some cfg =>
    cases hm : cachedMetadata db serverUrl integration with
    | some m => exact ⟨r, hr, rfl, rfl, rfl, rfl⟩
    | none =>
      unfold discoverMetadataLive
      cases hnet : env.net.discoverAuthorizationServerMetadata
          (resolveAuthServerUrl env serverUrl) with
      | ok v =>
        cases v with
        | some m =>
          simp only [hnet]
          exact upsertMcpIntegration_preserves_credentials db integration
            _ rfl rfl huniq r hr
        | none =>
          simp only [hnet]
          unfold discoverMetadataFallback
          cases hf : cfg.oauthConfig with
          | some fc =>
            exact upsertMcpIntegration_preserves_credentials db integration
              _ rfl rfl huniq r hr
          | none => exact ⟨r, hr, rfl, rfl, rfl, rfl⟩
      | error e =>
        simp only [hnet]
        unfold discoverMetadataFallback
        cases hf : cfg.oauthConfig with
        | some fc =>
          exact upsertMcpIntegration_preserves_credentials db integration
            _ rfl rfl huniq r hr
        | none => exact ⟨r, hr, rfl, rfl, rfl, rfl⟩

/-- Witness for C8: live discovery overwrites a stale cache while the
stored dynamically registered credentials survive. -/
theorem c8_witness :
    ∃ r' ∈ (discoverMetadata envOkNet dbCreds "https://mcp.acme.com"
        "acme").2.1.integrations,
      r'.id = acmeCredsRow.id ∧ r'.name = acmeCredsRow.name ∧
      r'.oauthClientId = acmeCredsRow.oauthClientId ∧
      r'.oauthClientSecret = acmeCredsRow.oauthClientSecret :=
  c8_discovery_preserves_credentials envOkNet dbCreds
    "https://mcp.acme.com" "acme" acmeCredsRow (by decide) (by decide)

/-- A found active connection is a stored row for the asked account, and is
active. -/
theorem findActiveConnection_spec (db : Db) (e i : String)
    (c : McpConnection) (h : findActiveConnection db e i = some c) :
    c ∈ db.connections ∧ c.emailAccountId = e ∧ c.isActive = true := by
  unfold findActiveConnection at h
  refine ⟨List.mem_of_find?_eq_some h, ?_, ?_⟩
  · have hp := List.find?_some (p := fun c : McpConnection =>
      c.emailAccountId == e && c.isActive &&
        (db.integrations.find? (fun x => x.id == c.integrationId)).any
          (fun x => x.name == i)) h
    simp only [Bool.and_eq_true, beq_iff_eq] at hp
    exact hp.1.1
  · have hp := List.find?_some (p := fun c : McpConnection =>
      c.emailAccountId == e && c.isActive &&
        (db.integrations.find? (fun x => x.id == c.integrationId)).any
          (fun x => x.name == i)) h
    simp only [Bool.and_eq_true, beq_iff_eq] at hp
    exact hp.1.2

/-- Updating the row a connection write targets does not hide it from a
subsequent lookup with a predicate the updated row satisfies. -/
theorem find?_conn_map_update (l : List McpConnection)
    (p : McpConnection → Bool) (c0 c1 : McpConnection)
    (h : l.find? p = some c0) (h' : p c1 = true) :
    (l.map (fun x => if x.id == c0.id then c1 else x)).find? p =
      some c1 := by
  induction l with
  | nil => simp at h
  | cons a l ih =>
    by_cases ha : p a = true
    · rw [List.find?_cons_of_pos _ ha] at h
      injection h with h
      subst h
      simp only [List.map_cons, BEq.refl, if_true]
      exact List.find?_cons_of_pos _ h'
    · rw [List.find?_cons_of_neg _ (by simp [ha])] at h
      by_cases hid : (a.id == c0.id) = true
      · simp only [List.map_cons, hid, if_true]
        exact List.find?_cons_of_pos _ h'
      · simp only [List.map_cons, hid, Bool.false_eq_true, if_false]
        rw [List.find?_cons_of_neg _ (by simp [ha]), ih h]

/-- With unique connection ids, lookup by a stored row's id returns exactly
that row. -/
theorem find?_conn_id_unique (l : List McpConnection) (c : McpConnection)
    (huniq : ∀ a ∈ l, ∀ b ∈ l, a.id = b.id → a = b) (hmem : c ∈ l) :
    l.find? (fun x => x.id == c.id) = some c := by
  cases hf : l.find? (fun x => x.id == c.id) with
  | none =>
    rw [List.find?_eq_none] at hf
    exact absurd (by simp) (hf c hmem)
  | some x =>
    have hx : x ∈ l := List.mem_of_find?_eq_some hf
    have hpx := List.find?_some (p := fun x : McpConnection =>
      x.id == c.id) hf
    rw [huniq x hx c hmem (eq_of_beq hpx)]

/-- Lookup by id commutes with an id-preserving map. -/
theorem find?_conn_id_map (l : List McpConnection) (k : Nat)
    (f : McpConnection → McpConnection) (hf : ∀ x, (f x).id = x.id) :
    (l.map f).find? (fun c => c.id == k) =
      (l.find? (fun c => c.id == k)).map f := by
  induction l with
  | nil => rfl
  | cons a l ih =>
    by_cases h : (a.id == k) = true
    · rw [List.map_cons,
        List.find?_cons_of_pos (p := fun c : McpConnection => c.id == k) _
          (by show ((f a).id == k) = true; rw [hf]; exact h),
        List.find?_cons_of_pos (p := fun c : McpConnection => c.id == k) _ h]
      rfl
    · rw [List.map_cons,
        List.find?_cons_of_neg (p := fun c : McpConnection => c.id == k) _
          (by show ¬ ((f a).id == k) = true; rw [hf]; exact h),
        List.find?_cons_of_neg (p := fun c : McpConnection => c.id == k) _ h,
        ih]

/-- Metadata resolution for an integration never touches the connections
table. -/
theorem getMetadataForIntegration_connections (env : Env) (db : Db)
    (cfg : IntegrationConfig) (integration : String) :
    (getMetadataForIntegration env db cfg integration).2.1.connections =
      db.connections :=
  discoverMetadata_connections ..

/-- Metadata resolution performs no refresh-token exchange. -/
theorem getMetadataForIntegration_refreshCalls (env : Env) (db : Db)
    (cfg : IntegrationConfig) (integration : String) :
    refreshCalls (getMetadataForIntegration env db cfg integration).2.2 =
      0 :=
  discoverMetadata_refreshCalls ..

/-- Run lemma: the successful refresh path of `refreshOAuthTokens`, with
the client, metadata and network outcomes given as equations. -/
theorem refreshOAuthTokens_run (env : Env) (db : Db)
    (integration emailAccountId : String)
    (integrationConfig : IntegrationConfig) (conn : McpConnection)
    (rt : String) (clientInfo : OAuthClientInformation)
    (metadata : AuthServerMetadata) (tokens : OAuthTokens)
    (db1 db2 : Db) (t1 t2 : List NetCall)
    (hcfg : env.getIntegration integration = some integrationConfig)
    (hsrv : truthyStr integrationConfig.serverUrl = true)
    (hconn : findActiveConnection db emailAccountId integration =
      some conn)
    (hrt : conn.refreshToken = some rt) (hrtne : rt ≠ "")
    (hclient : getOAuthClient env db integration none =
      (.ok clientInfo, db1, t1))
    (hmeta : getMetadataForIntegration env db1 integrationConfig
      integration = (.ok metadata, db2, t2))
    (href : env.net.refreshAuthorization metadata.token_endpoint clientInfo
      rt = .ok tokens) :
    refreshOAuthTokens env db integration emailAccountId =
      (.ok tokens,
       { db2 with connections := db2.connections.map (fun c =>
           if c.id == conn.id && c.emailAccountId == emailAccountId then
             { c with
               accessToken := some tokens.access_token
               refreshToken :=
                 if truthyStr tokens.refresh_token then tokens.refresh_token
                 else conn.refreshToken
               expiresAt := some (calculateTokenExpiration env.now
                 tokens.expires_in) }
           else c) },
       t1 ++ t2 ++
         [NetCall.refreshTokenExchange metadata.token_endpoint]) := by
  unfold refreshOAuthTokens
  rw [hcfg]
  simp [hsrv, hconn, hrt, truthyStr_some_of_ne rt hrtne, hclient, hmeta,
    href]

/-- C9: a successful refresh persists the new access token and expiry on
the connection row; a token response with no (truthy) new refresh token
leaves the previously stored refresh token in place — it is never nulled
out — while a nonempty response refresh token replaces it. -/
theorem c9_refresh_token_retention (env : Env) (db : Db)
    (integration emailAccountId : String)
    (integrationConfig : IntegrationConfig) (conn : McpConnection)
    (rt : String) (clientInfo : OAuthClientInformation)
    (metadata : AuthServerMetadata) (tokens : OAuthTokens)
    (db1 db2 : Db) (t1 t2 : List NetCall)
    (huniq : ConnectionIdsUnique db)
    (hcfg : env.getIntegration integration = some integrationConfig)
    (hsrv : truthyStr integrationConfig.serverUrl = true)
    (hconn : findActiveConnection db emailAccountId integration =
      some conn)
    (hrt : conn.refreshToken = some rt) (hrtne : rt ≠ "")
    (hclient : getOAuthClient env db integration none =
      (.ok clientInfo, db1, t1))
    (hmeta : getMetadataForIntegration env db1 integrationConfig
      integration = (.ok metadata, db2, t2))
    (href : env.net.refreshAuthorization metadata.token_endpoint clientInfo
      rt = .ok tokens) :
    ∃ c', findConnectionById
        (refreshOAuthTokens env db integration emailAccountId).2.1
        conn.id = some c' ∧
      c'.accessToken = some tokens.access_token ∧
      c'.expiresAt = some (calculateTokenExpiration env.now
        tokens.expires_in) ∧
      (tokens.refresh_token = none → c'.refreshToken = some rt) ∧
      (∀ s, tokens.refresh_token = some s → s ≠ "" →
        c'.refreshToken = some s) := by
  obtain ⟨hmem, hacct, hact⟩ := findActiveConnection_spec db emailAccountId
    integration conn hconn
  rw [refreshOAuthTokens_run env db integration emailAccountId
    integrationConfig conn rt clientInfo metadata tokens db1 db2 t1 t2
    hcfg hsrv hconn hrt hrtne hclient hmeta href]
  have hc1 : db1.connections = db.connections := by
    have h := getOAuthClient_connections env db integration none
    rw [hclient] at h
    exact h
  have hc2 : db2.connections = db.connections := by
    have h := getMetadataForIntegration_connections env db1
      integrationConfig integration
    rw [hmeta] at h
    rw [h, hc1]
  unfold findConnectionById
  simp only []
  rw [hc2]
  rw [find?_conn_id_map db.connections conn.id _
    (fun x => by split <;> rfl)]
  rw [find?_conn_id_unique db.connections conn huniq hmem]
  refine ⟨_, rfl, ?_⟩
  simp only [Option.map_some]
  have hcond : (conn.id == conn.id &&
      conn.emailAccountId == emailAccountId) = true := by
    simp [hacct]
  simp only [hcond, if_true]
  refine ⟨?_, ?_, ?_, ?_⟩
  · trivial
  · trivial
  · intro hnone
    simp [hnone, truthyStr, hrt]
  · intro s hs hsne
    simp [hs, truthyStr_some_of_ne s hsne]

/-- Witness for C9: a concrete refresh whose response rotates the refresh
token; the stored row afterwards holds the rotated token. -/
theorem c9_witness :
    ∃ c', findConnectionById
        (refreshOAuthTokens envRefresh dbRefresh "acme" "acct").2.1
        connExpired.id = some c' ∧
      c'.accessToken = some "refreshed-access" ∧
      c'.refreshToken = some "rotated-refresh" := by
  obtain ⟨c', h1, h2, h3, h4, h5⟩ := c9_refresh_token_retention envRefresh
    dbRefresh "acme" "acct" acmeConfig connExpired "refresh-1"
    { client_id := "static-client", client_secret := some "shh" }
    acmeCachedMetadata
    { access_token := "refreshed-access"
      refresh_token := some "rotated-refresh"
      expires_in := some 300 }
    dbRefresh dbRefresh [] [] (by decide) (by decide) (by decide)
    (by decide) rfl (by decide) (by decide) (by decide) (by decide)
  exact ⟨c', h1, h2, h5 "rotated-refresh" rfl (by decide)⟩

/-- Run lemma: the successful path of `handleOAuthCallback`, with the
client, metadata and exchange outcomes given as equations. -/
theorem handleOAuthCallback_run (env : Env) (db : Db)
    (integration code codeVerifier redirectUri emailAccountId : String)
    (integrationConfig : IntegrationConfig)
    (clientInfo : OAuthClientInformation) (metadata : AuthServerMetadata)
    (tokens : OAuthTokens) (db1 db2 : Db) (t1 t2 : List NetCall)
    (hcfg : env.getIntegration integration = some integrationConfig)
    (hsrv : truthyStr integrationConfig.serverUrl = true)
    (hclient : getOAuthClient env db integration (some redirectUri) =
      (.ok clientInfo, db1, t1))
    (hmeta : getMetadataForIntegration env db1 integrationConfig
      integration = (.ok metadata, db2, t2))
    (hexch : env.net.exchangeAuthorization metadata.token_endpoint
      clientInfo code codeVerifier redirectUri = .ok tokens) :
    handleOAuthCallback env db integration code codeVerifier redirectUri
        emailAccountId =
      (.ok tokens,
       upsertCallbackConnection (upsertMcpIntegration db2 integration {}).2
         integration emailAccountId
         (upsertMcpIntegration db2 integration {}).1.id tokens
         (calculateTokenExpiration env.now tokens.expires_in),
       t1 ++ t2 ++
         [NetCall.authorizationCodeExchange metadata.token_endpoint]) := by
  unfold handleOAuthCallback
  rw [hcfg]
  simp [hsrv, hclient, hmeta, hexch]

/-- The callback upsert's update path: the row under the unique key is the
stored row overwritten with the new tokens; an untruthy response refresh
token leaves the stored one in place. -/
theorem findConnectionByKey_upsertCallback_update (db : Db)
    (integration emailAccountId : String) (integrationId : Nat)
    (tokens : OAuthTokens) (expiresAt : Int) (c0 : McpConnection)
    (h : findConnectionByKey db emailAccountId integrationId = some c0) :
    findConnectionByKey (upsertCallbackConnection db integration
        emailAccountId integrationId tokens expiresAt)
      emailAccountId integrationId =
      some { c0 with
        accessToken := some tokens.access_token
        refreshToken :=
          if truthyStr tokens.refresh_token then tokens.refresh_token
          else c0.refreshToken
        expiresAt := some expiresAt
        isActive := true } := by
  unfold upsertCallbackConnection
  rw [h]
  unfold findConnectionByKey at h ⊢
  refine find?_conn_map_update db.connections _ c0 _ h ?_
  have hp := List.find?_some (p := fun c : McpConnection =>
    c.emailAccountId == emailAccountId &&
      c.integrationId == integrationId) h
  simpa using hp

/-- The callback upsert's create path: the row under the unique key is the
freshly inserted one; an untruthy response refresh token is stored as
null. -/
theorem findConnectionByKey_upsertCallback_create (db : Db)
    (integration emailAccountId : String) (integrationId : Nat)
    (tokens : OAuthTokens) (expiresAt : Int)
    (h : findConnectionByKey db emailAccountId integrationId = none) :
    findConnectionByKey (upsertCallbackConnection db integration
        emailAccountId integrationId tokens expiresAt)
      emailAccountId integrationId =
      some { id := db.nextConnectionId
             name := integration
             emailAccountId := emailAccountId
             integrationId := integrationId
             accessToken := some tokens.access_token
             refreshToken :=
               if truthyStr tokens.refresh_token then tokens.refresh_token
               else none
             expiresAt := some expiresAt
             isActive := true
             apiKey := none } := by
  unfold upsertCallbackConnection
  rw [h]
  unfold findConnectionByKey at h ⊢
  simp [List.find?_append, h, List.find?_singleton]

/-- C5 counterexample: a successful exchange whose token response carries
no refresh token, landing on the update path over a row that already holds
`"old-refresh"`, leaves that token stored — the claim's "preserved as null
regardless of the path" is false on the update path. -/
theorem c5_counterexample_update_path :
    (handleOAuthCallback envCallback dbCallback "acme" "code" "ver"
        "https://app/cb" "acct").1 =
      .ok { access_token := "new-access" } ∧
    (findConnectionByKey (handleOAuthCallback envCallback dbCallback
        "acme" "code" "ver" "https://app/cb" "acct").2.1 "acct" 1).map
      (fun c => c.refreshToken) = some (some "old-refresh") := by decide

/-- C5 (amended): a successful code exchange upserts the connection for
`(emailAccountId, integrationId)` with the returned access token,
`isActive = true` and the computed expiry; when the token response has no
refresh token, the create path stores null (never invents one) while the
update path leaves the previously stored refresh token unchanged; a
nonempty response refresh token is stored on both paths. -/
theorem c5_callback_upsert (env : Env) (db : Db)
    (integration code codeVerifier redirectUri emailAccountId : String)
    (integrationConfig : IntegrationConfig)
    (clientInfo : OAuthClientInformation) (metadata : AuthServerMetadata)
    (tokens : OAuthTokens) (db1 db2 : Db) (t1 t2 : List NetCall)
    (hcfg : env.getIntegration integration = some integrationConfig)
    (hsrv : truthyStr integrationConfig.serverUrl = true)
    (hclient : getOAuthClient env db integration (some redirectUri) =
      (.ok clientInfo, db1, t1))
    (hmeta : getMetadataForIntegration env db1 integrationConfig
      integration = (.ok metadata, db2, t2))
    (hexch : env.net.exchangeAuthorization metadata.token_endpoint
      clientInfo code codeVerifier redirectUri = .ok tokens) :
    ∃ c', findConnectionByKey
        (handleOAuthCallback env db integration code codeVerifier
          redirectUri emailAccountId).2.1 emailAccountId
        (upsertMcpIntegration db2 integration {}).1.id = some c' ∧
      c'.accessToken = some tokens.access_token ∧
      c'.isActive = true ∧
      c'.expiresAt = some (calculateTokenExpiration env.now
        tokens.expires_in) ∧
      (findConnectionByKey (upsertMcpIntegration db2 integration {}).2
          emailAccountId (upsertMcpIntegration db2 integration {}).1.id =
            none →
        (tokens.refresh_token = none → c'.refreshToken = none) ∧
        (∀ s, tokens.refresh_token = some s → s ≠ "" →
          c'.refreshToken = some s)) ∧
      (∀ c0, findConnectionByKey (upsertMcpIntegration db2
          integration {}).2 emailAccountId
          (upsertMcpIntegration db2 integration {}).1.id = some c0 →
        (tokens.refresh_token = none → c'.refreshToken = c0.refreshToken) ∧
        (∀ s, tokens.refresh_token = some s → s ≠ "" →
          c'.refreshToken = some s)) := by
  rw [handleOAuthCallback_run env db integration code codeVerifier
    redirectUri emailAccountId integrationConfig clientInfo metadata
    tokens db1 db2 t1 t2 hcfg hsrv hclient hmeta hexch]
  cases hprev : findConnectionByKey (upsertMcpIntegration db2
      integration {}).2 emailAccountId
      (upsertMcpIntegration db2 integration {}).1.id with
  | some c0 =>
    rw [findConnectionByKey_upsertCallback_update _ _ _ _ _ _ c0 hprev]
    refine ⟨_, rfl, rfl, rfl, rfl, ?_, ?_⟩
    · intro hnone
      exact Option.noConfusion hnone
    · intro c0' hc0'
      injection hc0' with hc0'
      subst hc0'
      refine ⟨?_, ?_⟩
      · intro hnone
        simp [hnone, truthyStr]
      · intro s hs hsne
        simp [hs, truthyStr_some_of_ne s hsne]
  | none =>
    rw [findConnectionByKey_upsertCallback_create _ _ _ _ _ _ hprev]
    refine ⟨_, rfl, rfl, rfl, rfl, ?_, ?_⟩
    · intro _
      refine ⟨?_, ?_⟩
      · intro hnone
        simp [hnone, truthyStr]
      · intro s hs hsne
        simp [hs, truthyStr_some_of_ne s hsne]
    · intro c0' hc0'
      exact Option.noConfusion hc0'

/-- Witness for C5 on the update path: the access token, activity flag and
expiry are written; the response carries no refresh token, so the stored
one is left as it was. -/
theorem c5_witness :
    ∃ c', findConnectionByKey (handleOAuthCallback envCallback dbCallback
        "acme" "code" "ver" "https://app/cb" "acct").2.1 "acct"
        (upsertMcpIntegration dbCallback "acme" {}).1.id = some c' ∧
      c'.accessToken = some "new-access" ∧
      c'.isActive = true ∧
      c'.expiresAt = some (calculateTokenExpiration 1000 none) ∧
      c'.refreshToken = connWithOldRefresh.refreshToken := by
  obtain ⟨c', h1, h2, h3, h4, h5, h6⟩ := c5_callback_upsert envCallback
    dbCallback "acme" "code" "ver" "https://app/cb" "acct" acmeConfig
    { client_id := "static-client", client_secret := some "shh" }
    acmeCachedMetadata { access_token := "new-access" }
    dbCallback dbCallback [] [] (by decide) (by decide) (by decide)
    (by decide) (by decide)
  exact ⟨c', h1, h2, h3, h4,
    (h6 connWithOldRefresh (by decide)).1 rfl⟩

/-- C1: the four branches of `getValidAccessToken`.  (a) A missing
connection row or an untruthy stored access token throws the not-connected
error.  (b) A null or non-past expiry returns the stored token unchanged,
with no store change and no network call.  (c) A past expiry with a
refresh token present performs exactly one refresh-token exchange and
returns the new access token.  (d) A past expiry with no refresh token
throws the reconnect-required error. -/
theorem c1_token_validity (env : Env) (db : Db)
    (integration emailAccountId : String) :
    (truthyStr ((findActiveConnection db emailAccountId integration).bind
        (fun c => c.accessToken)) = false →
      getValidAccessToken env db integration emailAccountId =
        (.error (notConnectedMsg integration), db, [])) ∧
    (∀ c tok, findActiveConnection db emailAccountId integration = some c →
      c.accessToken = some tok → tok ≠ "" →
      (c.expiresAt = none ∨ ∃ t, c.expiresAt = some t ∧ env.now ≤ t) →
      getValidAccessToken env db integration emailAccountId =
        (.ok tok, db, [])) ∧
    (∀ c tok t rt integrationConfig clientInfo metadata tokens db1 db2
        t1 t2,
      findActiveConnection db emailAccountId integration = some c →
      c.accessToken = some tok → tok ≠ "" →
      c.expiresAt = some t → t < env.now →
      c.refreshToken = some rt → rt ≠ "" →
      env.getIntegration integration = some integrationConfig →
      truthyStr integrationConfig.serverUrl = true →
      getOAuthClient env db integration none = (.ok clientInfo, db1, t1) →
      getMetadataForIntegration env db1 integrationConfig integration =
        (.ok metadata, db2, t2) →
      env.net.refreshAuthorization metadata.token_endpoint clientInfo rt =
        .ok tokens →
      (getValidAccessToken env db integration emailAccountId).1 =
        .ok tokens.access_token ∧
      refreshCalls (getValidAccessToken env db integration
        emailAccountId).2.2 = 1) ∧
    (∀ c tok t, findActiveConnection db emailAccountId integration =
        some c →
      c.accessToken = some tok → tok ≠ "" →
      c.expiresAt = some t → t < env.now →
      truthyStr c.refreshToken = false →
      getValidAccessToken env db integration emailAccountId =
        (.error (reconnectRequiredMsg integration), db, [])) := by
  refine ⟨?_, ?_, ?_, ?_⟩
  · intro h
    unfold getValidAccessToken
    simp [h]
  · intro c tok hconn htok htokne hexp
    unfold getValidAccessToken
    rcases hexp with h0 | ⟨t, ht, hle⟩
    · simp [hconn, htok, truthyStr_some_of_ne tok htokne, h0]
    · have hnlt : ¬ (t < env.now) := not_lt.mpr hle
      simp [hconn, htok, truthyStr_some_of_ne tok htokne, ht, hnlt]
  · intro c tok t rt integrationConfig clientInfo metadata tokens db1 db2
      t1 t2 hconn htok htokne hexp hlt hrt hrtne hcfg hsrv hclient hmeta
      href
    have hrun := refreshOAuthTokens_run env db integration emailAccountId
      integrationConfig c rt clientInfo metadata tokens db1 db2 t1 t2
      hcfg hsrv hconn hrt hrtne hclient hmeta href
    have ht1 : refreshCalls t1 = 0 := by
      have h := getOAuthClient_refreshCalls env db integration none
      rw [hclient] at h
      exact h
    have ht2 : refreshCalls t2 = 0 := by
      have h := getMetadataForIntegration_refreshCalls env db1
        integrationConfig integration
      rw [hmeta] at h
      exact h
    have hone : refreshCalls
        [NetCall.refreshTokenExchange metadata.token_endpoint] = 1 := rfl
    unfold getValidAccessToken
    simp [hconn, htok, truthyStr_some_of_ne tok htokne, hexp, hlt, hrt,
      truthyStr_some_of_ne rt hrtne, hrun, refreshCalls_append, ht1, ht2,
      hone]
  · intro c tok t hconn htok htokne hexp hlt hnort
    unfold getValidAccessToken
    simp [hconn, htok, truthyStr_some_of_ne tok htokne, hexp, hlt, hnort]

/-- Witness for C1: all four branches at concrete stores — missing
connection, future expiry, expired-and-refreshable (one refresh, new
token), and expired-and-unrefreshable. -/
theorem c1_witness :
    getValidAccessToken envBoundary dbEmpty "acme" "acct" =
      (.error (notConnectedMsg "acme"), dbEmpty, []) ∧
    getValidAccessToken envBoundary dbFuture "acme" "acct" =
      (.ok "tok", dbFuture, []) ∧
    ((getValidAccessToken envRefresh dbRefresh "acme" "acct").1 =
        .ok "refreshed-access" ∧
      refreshCalls (getValidAccessToken envRefresh dbRefresh "acme"
        "acct").2.2 = 1) ∧
    getValidAccessToken envBoundary dbExpiredBare "acme" "acct" =
      (.error (reconnectRequiredMsg "acme"), dbExpiredBare, []) := by
  refine ⟨?_, ?_, ?_, ?_⟩
  · exact (c1_token_validity envBoundary dbEmpty "acme" "acct").1
      (by decide)
  · exact (c1_token_validity envBoundary dbFuture "acme" "acct").2.1
      connFuture "tok" (by decide) rfl (by decide)
      (Or.inr ⟨2000, rfl, by decide⟩)
  · exact (c1_token_validity envRefresh dbRefresh "acme" "acct").2.2.1
      connExpired "old-access" 500 "refresh-1" acmeConfig
      { client_id := "static-client", client_secret := some "shh" }
      acmeCachedMetadata
      { access_token := "refreshed-access"
        refresh_token := some "rotated-refresh"
        expires_in := some 300 }
      dbRefresh dbRefresh [] [] (by decide) rfl (by decide) rfl
      (by decide) rfl (by decide) (by decide) (by decide) (by decide)
      (by decide) (by decide)
  · exact (c1_token_validity envBoundary dbExpiredBare "acme"
      "acct").2.2.2 connExpiredBare "tok" 500 (by decide) rfl (by decide)
      rfl (by decide) (by decide)

end McpOauth
